import Mathlib

/-!
Verification of the multi-head attention layers of the `baseline` repository
(`baseline/tensorflow/attention.py` and `baseline/torch/layers/attention.py`).

Tensors are modelled as total functions from `Fin`-indexed axes to `ℝ`.
Broadcasting in the Python source becomes index dropping, `tf.reduce_sum`
becomes `Finset.sum` over a `Fin` axis, and `tf.reduce_max` over the key axis
becomes `Finset.sup'` (the key axis must be nonempty, expressed by `NeZero`).
Floating-point arithmetic is embedded as exact real arithmetic.
-/

namespace Baseline

namespace TF

/-- `half_dim = dim // 2` in `sinusoid_position_encoding`. -/
def pe_half_dim (dim : ℕ) : ℕ := dim / 2

/-- `div = tf.pow(wave, d / half_dim)`: the frequency divisor for half-index
`i`, a real power of `wave`. -/
noncomputable def pe_div (dim : ℕ) (wave : ℝ) (i : ℕ) : ℝ :=
  wave ^ ((i : ℝ) / (pe_half_dim dim : ℝ))

/-- `theta = position / div`: the angle at position `p`, half-index `i`. -/
noncomputable def pe_theta (dim : ℕ) (wave : ℝ) (p i : ℕ) : ℝ :=
  (p : ℝ) / pe_div dim wave i

/-- The number of output columns of `sinusoid_position_encoding`:
`tf.concat([sin, cos], axis=1)` concatenates two blocks of `half_dim`
columns each. -/
def pe_width (dim : ℕ) : ℕ := pe_half_dim dim + pe_half_dim dim

/-- One entry of the encoded table, by raw row/column index: columns
`[0, half_dim)` hold `sin(theta)`, the following `half_dim` columns hold
`cos(theta)`. -/
noncomputable def pe_entry (dim : ℕ) (wave : ℝ) (p j : ℕ) : ℝ :=
  if j < pe_half_dim dim then Real.sin (pe_theta dim wave p j)
  else Real.cos (pe_theta dim wave p (j - pe_half_dim dim))

/-- `sinusoid_position_encoding(sequence_length, dim, wave)`: a table of
shape `(L, pe_width dim)`. -/
noncomputable def sinusoid_position_encoding (L dim : ℕ) (wave : ℝ) :
    Fin L → Fin (pe_width dim) → ℝ :=
  fun p j => pe_entry dim wave p.val j.val

/-- `MultiHeadAttention.epsilon = 1e-10`. -/
noncomputable def epsilon : ℝ := 1e-10

/-- `tf.reduce_max` over the (nonempty) key axis. -/
noncomputable def keyMax {K : ℕ} [NeZero K] (f : Fin K → ℝ) : ℝ :=
  Finset.univ.sup' Finset.univ_nonempty f

namespace MultiHeadAttention

/-- The value of `MultiHeadAttention.__init__`: either a configured layer
(attention type resolved, `dim_additive` retained for the additive mode) or
the raised error. -/
inductive AttentionType
  | dotProduct
  | additive

/-- Configuration produced by a successful `__init__`. -/
structure Config where
  attention_type : AttentionType
  use_bias : Bool
  dim_additive : Option ℕ

/-- `MultiHeadAttention.__init__(attention_type, use_bias, dim_additive)`:
`"dot-product"` and `"additive"` construct a layer (the latter asserts
`dim_additive is not None`); any other string raises
`ValueError("invalid attention_type: " + attention_type)`. -/
def init (attention_type : String) (use_bias : Bool) (dim_additive : Option ℕ) :
    Except String Config :=
  if attention_type = "dot-product" then
    Except.ok ⟨AttentionType.dotProduct, use_bias, none⟩
  else if attention_type = "additive" then
    match dim_additive with
    | none => Except.error "AssertionError: dim_additive is not None"
    | some d => Except.ok ⟨AttentionType.additive, use_bias, some d⟩
  else
    Except.error ("invalid attention_type: " ++ attention_type)

/-- The raw dot-product scores of `dot_product_attend` (before the optional
bias): `us = reduce_sum(queries * keys, axis=-1) / sqrt(dim_keys)` where
`dim_keys = tf.shape(keys)[-1] = D`, the per-head key dimension. -/
noncomputable def dot_product_scores {B Q K H D : ℕ}
    (queries : Fin B → Fin Q → Fin H → Fin D → ℝ)
    (keys : Fin B → Fin K → Fin H → Fin D → ℝ) :
    Fin B → Fin Q → Fin K → Fin H → ℝ :=
  fun b q k h => (∑ d, queries b q h d * keys b k h d) / Real.sqrt (D : ℝ)

/-- Line `scores = scores - tf.reduce_max(scores, axis=-2, keepdims=True)` of
`softmax_reduce` (the overflow-avoidance shift along the key axis). -/
noncomputable def shifted_scores {B Q K H : ℕ} [NeZero K]
    (scores : Fin B → Fin Q → Fin K → Fin H → ℝ) :
    Fin B → Fin Q → Fin K → Fin H → ℝ :=
  fun b q k h => scores b q k h - keyMax (fun j => scores b q j h)

/-- `exp_scores = tf.exp(scores)` applied to the shifted scores. -/
noncomputable def exp_scores {B Q K H : ℕ} [NeZero K]
    (scores : Fin B → Fin Q → Fin K → Fin H → ℝ) :
    Fin B → Fin Q → Fin K → Fin H → ℝ :=
  fun b q k h => Real.exp (shifted_scores scores b q k h)

/-- `exp_scores * key_mask` broadcast over the query and head axes (skipped
when no mask is supplied). -/
noncomputable def masked_exp_scores {B Q K H : ℕ} [NeZero K]
    (scores : Fin B → Fin Q → Fin K → Fin H → ℝ)
    (key_mask : Option (Fin B → Fin K → ℝ)) :
    Fin B → Fin Q → Fin K → Fin H → ℝ :=
  fun b q k h =>
    match key_mask with
    | none => exp_scores scores b q k h
    | some m => exp_scores scores b q k h * m b k

/-- `attentions = exp_scores / (reduce_sum(exp_scores, axis=-2) + epsilon)`:
the normalized attention weights of `softmax_reduce`. -/
noncomputable def attentions {B Q K H : ℕ} [NeZero K]
    (scores : Fin B → Fin Q → Fin K → Fin H → ℝ)
    (key_mask : Option (Fin B → Fin K → ℝ)) :
    Fin B → Fin Q → Fin K → Fin H → ℝ :=
  fun b q k h =>
    masked_exp_scores scores key_mask b q k h /
      ((∑ j, masked_exp_scores scores key_mask b q j h) + epsilon)

/-- `reduction = reduce_sum(attentions * values, axis=-3)`: the weighted sum
of the value vectors over the key axis, before the final reshape. -/
noncomputable def reduction {B Q K H V : ℕ} [NeZero K]
    (scores : Fin B → Fin Q → Fin K → Fin H → ℝ)
    (values : Fin B → Fin K → Fin H → Fin V → ℝ)
    (key_mask : Option (Fin B → Fin K → ℝ)) :
    Fin B → Fin Q → Fin H → Fin V → ℝ :=
  fun b q h v => ∑ k, attentions scores key_mask b q k h * values b k h v

/-- The final `tf.reshape` of `softmax_reduce`: the head and value axes are
flattened row-major into a single axis of size `num_head * dim_value`. -/
def flatten_heads {B Q H V : ℕ} (r : Fin B → Fin Q → Fin H → Fin V → ℝ) :
    Fin B → Fin Q → Fin (H * V) → ℝ :=
  fun b q i =>
    have hV : 0 < V := by
      rcases Nat.eq_zero_or_pos V with h | h
      · exact absurd i.isLt (by simp [h])
      · exact h
    r b q ⟨i.val / V, Nat.div_lt_of_lt_mul (Nat.mul_comm H V ▸ i.isLt)⟩
      ⟨i.val % V, Nat.mod_lt _ hV⟩

/-- `softmax_reduce(scores, values, key_mask)`: returns the flattened
reduction and the attention-weight tensor. -/
noncomputable def softmax_reduce {B Q K H V : ℕ} [NeZero K]
    (scores : Fin B → Fin Q → Fin K → Fin H → ℝ)
    (values : Fin B → Fin K → Fin H → Fin V → ℝ)
    (key_mask : Option (Fin B → Fin K → ℝ)) :
    (Fin B → Fin Q → Fin (H * V) → ℝ) × (Fin B → Fin Q → Fin K → Fin H → ℝ) :=
  (flatten_heads (reduction scores values key_mask), attentions scores key_mask)

/-- `dot_product_attend(queries, keys, values, key_mask)`: raw dot-product
scores, plus the per-head `attention_bias` when `use_bias`, then
`softmax_reduce`. -/
noncomputable def dot_product_attend {B Q K H D V : ℕ} [NeZero K]
    (attention_bias : Option (Fin H → ℝ))
    (queries : Fin B → Fin Q → Fin H → Fin D → ℝ)
    (keys : Fin B → Fin K → Fin H → Fin D → ℝ)
    (values : Fin B → Fin K → Fin H → Fin V → ℝ)
    (key_mask : Option (Fin B → Fin K → ℝ)) :
    (Fin B → Fin Q → Fin (H * V) → ℝ) × (Fin B → Fin Q → Fin K → Fin H → ℝ) :=
  let us0 := dot_product_scores queries keys
  let us :=
    match attention_bias with
    | none => us0
    | some bias => fun b q k h => us0 b q k h + bias h
  softmax_reduce us values key_mask

end MultiHeadAttention

namespace MultiHeadReduction

/-- `MultiHeadReduction.compute_output_shape`: maps an input shape
`(batch, seq_len, dim_input)` to `input_shape[:1] + [dim_sum_output]`. -/
def compute_output_shape (dim_sum_output : ℕ) (input_shape : ℕ × ℕ × ℕ) :
    ℕ × ℕ :=
  (input_shape.1, dim_sum_output)

/-- The body of `MultiHeadReduction.call`, returning both the reduction
(after the `tf.squeeze(_, 1)` of the singleton query axis) and the
attention-weight tensor stored by `dot_product_attend`.

Pipeline: optional position encoding added to the inputs, `kvs =
tensordot(inputs, kv_kernel, 1)` unstacked into keys and values, the optional
`value_bias` and `key_activation`, then `dot_product_attend` with the learned
`query_kernel` as a broadcast single query. The position-add branch assumes
`dim_input` even (the shape precondition of the Python broadcast). -/
noncomputable def call_full {B L Din H Dh : ℕ} [NeZero L]
    (kv_kernel : Fin Din → Fin 2 → Fin H → Fin Dh → ℝ)
    (query_kernel : Fin H → Fin Dh → ℝ)
    (value_bias : Option (Fin H → Fin Dh → ℝ))
    (attention_bias : Option (Fin H → ℝ))
    (key_activation : Option (ℝ → ℝ))
    (position_add : Bool) (wave : ℝ)
    (inputs : Fin B → Fin L → Fin Din → ℝ)
    (mask : Option (Fin B → Fin L → ℝ)) :
    (Fin B → Fin (H * Dh) → ℝ) × (Fin B → Fin 1 → Fin L → Fin H → ℝ) :=
  let inputs2 : Fin B → Fin L → Fin Din → ℝ :=
    if position_add then
      fun b l d => inputs b l d + pe_entry Din wave l.val d.val
    else inputs
  let kvs : Fin B → Fin L → Fin 2 → Fin H → Fin Dh → ℝ :=
    fun b l c h e => ∑ d, inputs2 b l d * kv_kernel d c h e
  let keys0 : Fin B → Fin L → Fin H → Fin Dh → ℝ := fun b l h e => kvs b l 0 h e
  let values0 : Fin B → Fin L → Fin H → Fin Dh → ℝ := fun b l h e => kvs b l 1 h e
  let values : Fin B → Fin L → Fin H → Fin Dh → ℝ :=
    match value_bias with
    | none => values0
    | some bias => fun b l h e => values0 b l h e + bias h e
  let keys : Fin B → Fin L → Fin H → Fin Dh → ℝ :=
    match key_activation with
    | none => keys0
    | some act => fun b l h e => act (keys0 b l h e)
  let queries : Fin B → Fin 1 → Fin H → Fin Dh → ℝ := fun _ _ h e => query_kernel h e
  let attended :=
    MultiHeadAttention.dot_product_attend attention_bias queries keys values mask
  (fun b i => attended.1 b 0 i, attended.2)

/-- `MultiHeadReduction.call`: the reduction of shape
`(batch, num_head * dim_each_output)`. -/
noncomputable def call {B L Din H Dh : ℕ} [NeZero L]
    (kv_kernel : Fin Din → Fin 2 → Fin H → Fin Dh → ℝ)
    (query_kernel : Fin H → Fin Dh → ℝ)
    (value_bias : Option (Fin H → Fin Dh → ℝ))
    (attention_bias : Option (Fin H → ℝ))
    (key_activation : Option (ℝ → ℝ))
    (position_add : Bool) (wave : ℝ)
    (inputs : Fin B → Fin L → Fin Din → ℝ)
    (mask : Option (Fin B → Fin L → ℝ)) :
    Fin B → Fin (H * Dh) → ℝ :=
  (call_full kv_kernel query_kernel value_bias attention_bias key_activation
    position_add wave inputs mask).1

/-- The learned parameters created by `MultiHeadReduction.build` and
`attention_build` for the dot-product mode (`kv_kernel`, `query_kernel`, and
the optional `value_bias` and `attention_bias` when `use_bias`). -/
structure Weights (Din H Dh : ℕ) where
  kv_kernel : Fin Din → Fin 2 → Fin H → Fin Dh → ℝ
  query_kernel : Fin H → Fin Dh → ℝ
  value_bias : Option (Fin H → Fin Dh → ℝ)
  attention_bias : Option (Fin H → ℝ)

/-- The mutable attributes of a layer object visible to a forward call: the
weights and the `self.attentions` slot assigned in `dot_product_attend`. The
attention shape depends on the batch/sequence sizes of the call, hence the
sigma type. -/
structure LayerState (Din H Dh : ℕ) where
  weights : Weights Din H Dh
  attentions : Option ((B : ℕ) × (L : ℕ) × (Fin B → Fin 1 → Fin L → Fin H → ℝ))

/-- `MultiHeadReduction.call` as a state transformer: the one attribute
assignment in the forward path is `self.attentions = ...` inside
`dot_product_attend`; no weight attribute is assigned anywhere in
`call`, `dot_product_attend` or `softmax_reduce`. -/
noncomputable def call_step {B L Din H Dh : ℕ} [NeZero L]
    (s : LayerState Din H Dh)
    (key_activation : Option (ℝ → ℝ))
    (position_add : Bool) (wave : ℝ)
    (inputs : Fin B → Fin L → Fin Din → ℝ)
    (mask : Option (Fin B → Fin L → ℝ)) :
    LayerState Din H Dh × (Fin B → Fin (H * Dh) → ℝ) :=
  let full := call_full s.weights.kv_kernel s.weights.query_kernel
    s.weights.value_bias s.weights.attention_bias key_activation
    position_add wave inputs mask
  (⟨s.weights, some ⟨B, L, full.2⟩⟩, full.1)

end MultiHeadReduction

end TF

namespace Torch

/-- Modelled from the spec: `baseline.torch.utils.elu_clip` is imported by
`baseline/torch/layers/attention.py` but its defining file is not part of the
sources; the spec describes it only as an "elu-based stabilizer" applied to
the scaled scores before exponentiation. It is modelled as the standard ELU
nonlinearity; every general theorem below is parameterized over an arbitrary
stabilizer `clip : ℝ → ℝ`, so nothing depends on this choice. -/
noncomputable def elu_clip (x : ℝ) : ℝ :=
  if 0 ≤ x then x else Real.exp x - 1

namespace MultiHeadSelfAttention

/-- The raw scores of `MultiHeadSelfAttention.forward`:
`u = (queries.unsqueeze(2) * keys.unsqueeze(1)).sum(-1)` divided by
`self._sqrt_input_dim = input_dim ** 0.5`, where `input_dim = H * Dh`
(`head_dim = input_dim // num_head`). -/
noncomputable def scores {B L H Dh : ℕ}
    (queries : Fin B → Fin L → Fin H → Fin Dh → ℝ)
    (keys : Fin B → Fin L → Fin H → Fin Dh → ℝ) :
    Fin B → Fin L → Fin L → Fin H → ℝ :=
  fun b qi ki h => (∑ d, queries b qi h d * keys b ki h d) / Real.sqrt ((H * Dh : ℕ) : ℝ)

end MultiHeadSelfAttention

namespace MultiHeadReduction

/-- `exp_u = elu_clip(u / self._sqrt_input_dim).exp()`, then
`exp_u = exp_u * masks.unsqueeze(-1)` when a mask is given, in
`MultiHeadReduction.forward`; `clip` stands for `elu_clip` and `sqrt_dim`
for `self._sqrt_input_dim`. -/
noncomputable def exp_u {B L H : ℕ} (clip : ℝ → ℝ) (sqrt_dim : ℝ)
    (u : Fin B → Fin L → Fin H → ℝ)
    (masks : Option (Fin B → Fin L → ℝ)) :
    Fin B → Fin L → Fin H → ℝ :=
  fun b l h =>
    match masks with
    | none => Real.exp (clip (u b l h / sqrt_dim))
    | some m => Real.exp (clip (u b l h / sqrt_dim)) * m b l

/-- The denominator of `attention = exp_u / exp_u.sum(1, keepdim=True)` in
`MultiHeadReduction.forward`: the bare sum over the sequence axis, with no
epsilon term. -/
noncomputable def attention_denominator {B L H : ℕ} (clip : ℝ → ℝ) (sqrt_dim : ℝ)
    (u : Fin B → Fin L → Fin H → ℝ)
    (masks : Option (Fin B → Fin L → ℝ)) :
    Fin B → Fin H → ℝ :=
  fun b h => ∑ l, exp_u clip sqrt_dim u masks b l h

/-- `attention = exp_u / exp_u.sum(1, keepdim=True)` of
`MultiHeadReduction.forward` (real division; the IEEE computation yields NaN
where the denominator is zero). -/
noncomputable def attention {B L H : ℕ} (clip : ℝ → ℝ) (sqrt_dim : ℝ)
    (u : Fin B → Fin L → Fin H → ℝ)
    (masks : Option (Fin B → Fin L → ℝ)) :
    Fin B → Fin L → Fin H → ℝ :=
  fun b l h =>
    exp_u clip sqrt_dim u masks b l h / attention_denominator clip sqrt_dim u masks b h

end MultiHeadReduction

end Torch

/-- Written from the spec's words, for comparison with the code: the naive
softmax of a score row, `exp(s_k) / Σ_j exp(s_j)`, computed without the
max-subtraction shift and without the epsilon term. -/
noncomputable def naive_softmax {K : ℕ} (f : Fin K → ℝ) (k : Fin K) : ℝ :=
  Real.exp (f k) / ∑ j, Real.exp (f j)

/-! ### Helper lemmas -/

theorem epsilon_pos : (0 : ℝ) < TF.epsilon := by
  norm_num [TF.epsilon]

theorem exists_keyMax_eq {K : ℕ} [NeZero K] (f : Fin K → ℝ) :
    ∃ k, TF.keyMax f = f k := by
  obtain ⟨k, _, hk⟩ := Finset.exists_mem_eq_sup' Finset.univ_nonempty f
  exact ⟨k, hk⟩

theorem one_le_sum_exp_scores {B Q K H : ℕ} [NeZero K]
    (scores : Fin B → Fin Q → Fin K → Fin H → ℝ) (b : Fin B) (q : Fin Q) (h : Fin H) :
    1 ≤ ∑ k, TF.MultiHeadAttention.exp_scores scores b q k h := by
  obtain ⟨k0, hk0⟩ := exists_keyMax_eq (fun j => scores b q j h)
  have hterm : TF.MultiHeadAttention.exp_scores scores b q k0 h = 1 := by
    simp [TF.MultiHeadAttention.exp_scores, TF.MultiHeadAttention.shifted_scores, hk0]
  calc (1:ℝ) = TF.MultiHeadAttention.exp_scores scores b q k0 h := hterm.symm
    _ ≤ ∑ k, TF.MultiHeadAttention.exp_scores scores b q k h :=
        Finset.single_le_sum (f := fun k => TF.MultiHeadAttention.exp_scores scores b q k h)
          (fun i _ => (Real.exp_pos _).le) (Finset.mem_univ k0)

theorem sum_exp_pos {K : ℕ} [NeZero K] (f : Fin K → ℝ) :
    0 < ∑ j, Real.exp (f j) :=
  Finset.sum_pos (fun _ _ => Real.exp_pos _) Finset.univ_nonempty

theorem sum_exp_sub_keyMax {K : ℕ} [NeZero K] (f : Fin K → ℝ) :
    (∑ j, Real.exp (f j - TF.keyMax f)) =
      (∑ j, Real.exp (f j)) / Real.exp (TF.keyMax f) := by
  rw [Finset.sum_div]
  exact Finset.sum_congr rfl (fun _ _ => by rw [Real.exp_sub])

/-! ### Claim theorems -/

/-- C6: for every score tensor and value tensor, `softmax_reduce` invoked
with a mask of all ones produces exactly the same attention weights and the
same reduced output as `softmax_reduce` invoked with no mask. -/
theorem softmax_reduce_all_ones_mask_noop {B Q K H V : ℕ} [NeZero K]
    (scores : Fin B → Fin Q → Fin K → Fin H → ℝ)
    (values : Fin B → Fin K → Fin H → Fin V → ℝ) :
    TF.MultiHeadAttention.softmax_reduce scores values (some fun _ _ => 1) =
      TF.MultiHeadAttention.softmax_reduce scores values none := by
  have hA : TF.MultiHeadAttention.attentions scores (some fun _ _ => (1:ℝ)) =
      TF.MultiHeadAttention.attentions scores none := by
    funext b q k h
    simp [TF.MultiHeadAttention.attentions, TF.MultiHeadAttention.masked_exp_scores]
  have hR : TF.MultiHeadAttention.reduction scores values (some fun _ _ => 1) =
      TF.MultiHeadAttention.reduction scores values none := by
    funext b q h v
    simp [TF.MultiHeadAttention.reduction, hA]
  simp [TF.MultiHeadAttention.softmax_reduce, hR, hA]

/-- C6 witness: the all-ones mask is a no-op at a concrete input. -/
theorem softmax_reduce_all_ones_mask_noop_witness :
    TF.MultiHeadAttention.softmax_reduce
        (fun _ _ _ _ => (0:ℝ) : Fin 1 → Fin 1 → Fin 1 → Fin 1 → ℝ)
        (fun _ _ _ _ => (1:ℝ) : Fin 1 → Fin 1 → Fin 1 → Fin 1 → ℝ)
        (some fun _ _ => 1) =
      TF.MultiHeadAttention.softmax_reduce
        (fun _ _ _ _ => (0:ℝ)) (fun _ _ _ _ => (1:ℝ)) none :=
  softmax_reduce_all_ones_mask_noop (fun _ _ _ _ => 0) (fun _ _ _ _ => 1)

/-- C5: for every score tensor and an absent mask, the attention weights of
each (batch, query, head) row sum exactly to `S / (S + epsilon)` where `S` is
the key-axis sum of the exponentiated (shifted) scores, and this sum lies
strictly between `1 - epsilon` and `1`. -/
theorem unmasked_attention_rows_sum_to_one {B Q K H : ℕ} [NeZero K]
    (scores : Fin B → Fin Q → Fin K → Fin H → ℝ) (b : Fin B) (q : Fin Q) (h : Fin H) :
    (∑ k, TF.MultiHeadAttention.attentions scores none b q k h) =
      (∑ k, TF.MultiHeadAttention.exp_scores scores b q k h) /
        ((∑ k, TF.MultiHeadAttention.exp_scores scores b q k h) + TF.epsilon) ∧
    1 - TF.epsilon < ∑ k, TF.MultiHeadAttention.attentions scores none b q k h ∧
    (∑ k, TF.MultiHeadAttention.attentions scores none b q k h) < 1 := by
  have hS1 : 1 ≤ ∑ k, TF.MultiHeadAttention.exp_scores scores b q k h :=
    one_le_sum_exp_scores scores b q h
  have hεpos : (0:ℝ) < TF.epsilon := epsilon_pos
  have hε1 : TF.epsilon < 1 := by norm_num [TF.epsilon]
  have hsum : (∑ k, TF.MultiHeadAttention.attentions scores none b q k h) =
      (∑ k, TF.MultiHeadAttention.exp_scores scores b q k h) /
        ((∑ k, TF.MultiHeadAttention.exp_scores scores b q k h) + TF.epsilon) := by
    simp only [TF.MultiHeadAttention.attentions, TF.MultiHeadAttention.masked_exp_scores]
    rw [← Finset.sum_div]
  have hden : 0 < (∑ k, TF.MultiHeadAttention.exp_scores scores b q k h) + TF.epsilon := by
    linarith
  refine ⟨hsum, ?_, ?_⟩
  · rw [hsum, lt_div_iff₀ hden]
    nlinarith
  · rw [hsum, div_lt_one hden]
    linarith

/-- C5 witness: at a concrete unmasked input the row sum is below one. -/
theorem unmasked_attention_rows_sum_to_one_witness :
    (∑ k, TF.MultiHeadAttention.attentions
        (fun _ _ _ _ => (0:ℝ) : Fin 1 → Fin 1 → Fin 1 → Fin 1 → ℝ) none 0 0 k 0) < 1 :=
  (unmasked_attention_rows_sum_to_one (fun _ _ _ _ => 0) 0 0 0).2.2

/-- C2 (amended): in the TensorFlow `softmax_reduce`, a mask whose row over
the key axis is all zeros yields, for that batch row, attention weights that
are all exactly zero and a reduced output (both before and after the head
flattening) that is exactly zero, because the numerator vanishes and the
denominator is the key-axis sum plus `epsilon`. -/
theorem all_masked_row_yields_zero {B Q K H V : ℕ} [NeZero K]
    (scores : Fin B → Fin Q → Fin K → Fin H → ℝ)
    (values : Fin B → Fin K → Fin H → Fin V → ℝ)
    (m : Fin B → Fin K → ℝ) (b : Fin B) (hm : ∀ k, m b k = 0) :
    (∀ q k h, TF.MultiHeadAttention.attentions scores (some m) b q k h = 0) ∧
    (∀ q h v, TF.MultiHeadAttention.reduction scores values (some m) b q h v = 0) ∧
    (∀ q i, (TF.MultiHeadAttention.softmax_reduce scores values (some m)).1 b q i = 0) := by
  have hA : ∀ q k h, TF.MultiHeadAttention.attentions scores (some m) b q k h = 0 := by
    intro q k h
    simp [TF.MultiHeadAttention.attentions, TF.MultiHeadAttention.masked_exp_scores, hm]
  refine ⟨hA, ?_, ?_⟩
  · intro q h v
    simp [TF.MultiHeadAttention.reduction, hA]
  · intro q i
    simp [TF.MultiHeadAttention.softmax_reduce, TF.MultiHeadAttention.flatten_heads,
      TF.MultiHeadAttention.reduction, hA]

/-- C2 witness: a concrete all-zero mask row gives zero weights. -/
theorem all_masked_row_yields_zero_witness :
    TF.MultiHeadAttention.attentions
        (fun _ _ _ _ => (0:ℝ) : Fin 1 → Fin 1 → Fin 1 → Fin 1 → ℝ)
        (some fun (_ : Fin 1) (_ : Fin 1) => (0:ℝ)) 0 0 0 0 = 0 :=
  (all_masked_row_yields_zero (fun _ _ _ _ => 0)
    (fun _ _ _ _ => (1:ℝ) : Fin 1 → Fin 1 → Fin 1 → Fin 1 → ℝ) (fun _ _ => 0) 0
    (fun _ => rfl)).1 0 0 0

/-- C2 counterexample: in the torch `MultiHeadReduction.forward`, the
denominator of the attention normalization is the bare key-axis sum, with no
epsilon term: at a concrete all-zero mask it equals `0` (so the IEEE
computation divides zero by zero), and it differs from the epsilon-guarded
denominator the claim asserts. -/
theorem torch_all_masked_denominator_is_zero :
    Torch.MultiHeadReduction.attention_denominator Torch.elu_clip 1
        (fun (_ : Fin 1) (_ : Fin 1) (_ : Fin 1) => (0:ℝ))
        (some fun (_ : Fin 1) (_ : Fin 1) => (0:ℝ)) 0 0 = 0 ∧
    Torch.MultiHeadReduction.attention_denominator Torch.elu_clip 1
        (fun (_ : Fin 1) (_ : Fin 1) (_ : Fin 1) => (0:ℝ))
        (some fun (_ : Fin 1) (_ : Fin 1) => (0:ℝ)) 0 0 ≠
      (∑ l : Fin 1, Torch.MultiHeadReduction.exp_u Torch.elu_clip 1
          (fun (_ : Fin 1) (_ : Fin 1) (_ : Fin 1) => (0:ℝ))
          (some fun (_ : Fin 1) (_ : Fin 1) => (0:ℝ)) 0 l 0) + TF.epsilon := by
  have h0 : Torch.MultiHeadReduction.attention_denominator Torch.elu_clip 1
      (fun (_ : Fin 1) (_ : Fin 1) (_ : Fin 1) => (0:ℝ))
      (some fun (_ : Fin 1) (_ : Fin 1) => (0:ℝ)) 0 0 = 0 := by
    simp [Torch.MultiHeadReduction.attention_denominator, Torch.MultiHeadReduction.exp_u]
  refine ⟨h0, ?_⟩
  rw [h0]
  have hs : (∑ l : Fin 1, Torch.MultiHeadReduction.exp_u Torch.elu_clip 1
      (fun (_ : Fin 1) (_ : Fin 1) (_ : Fin 1) => (0:ℝ))
      (some fun (_ : Fin 1) (_ : Fin 1) => (0:ℝ)) 0 l 0) = 0 := by
    simp [Torch.MultiHeadReduction.exp_u]
  rw [hs]
  norm_num [TF.epsilon]

/-- C1 (amended): the TensorFlow raw dot-product score divides the query-key
dot product by `sqrt(head_dim)`; the torch self-attention variant divides by
`sqrt(input_dim) = sqrt(num_head * head_dim)`, which matches the claim only
for a single head. With head_dim 2, one head, query [1,0] and key [1,0],
both implementations give raw score `1 / sqrt 2`. -/
theorem dot_product_score_divisors :
    (∀ (B Q K H D : ℕ) (queries : Fin B → Fin Q → Fin H → Fin D → ℝ)
        (keys : Fin B → Fin K → Fin H → Fin D → ℝ)
        (b : Fin B) (q : Fin Q) (k : Fin K) (h : Fin H),
        TF.MultiHeadAttention.dot_product_scores queries keys b q k h =
          (∑ d, queries b q h d * keys b k h d) / Real.sqrt (D : ℝ)) ∧
    (∀ (B L H D : ℕ) (queries keys : Fin B → Fin L → Fin H → Fin D → ℝ)
        (b : Fin B) (i j : Fin L) (h : Fin H),
        Torch.MultiHeadSelfAttention.scores queries keys b i j h =
          (∑ d, queries b i h d * keys b j h d) / Real.sqrt ((H * D : ℕ) : ℝ)) ∧
    TF.MultiHeadAttention.dot_product_scores
        (fun _ _ _ d => if d.val = 0 then (1:ℝ) else 0 : Fin 1 → Fin 1 → Fin 1 → Fin 2 → ℝ)
        (fun _ _ _ d => if d.val = 0 then (1:ℝ) else 0 : Fin 1 → Fin 1 → Fin 1 → Fin 2 → ℝ)
        0 0 0 0 = 1 / Real.sqrt 2 ∧
    Torch.MultiHeadSelfAttention.scores
        (fun _ _ _ d => if d.val = 0 then (1:ℝ) else 0 : Fin 1 → Fin 1 → Fin 1 → Fin 2 → ℝ)
        (fun _ _ _ d => if d.val = 0 then (1:ℝ) else 0) 0 0 0 0 = 1 / Real.sqrt 2 := by
  refine ⟨fun B Q K H D queries keys b q k h => rfl,
    fun B L H D queries keys b i j h => rfl, ?_, ?_⟩
  · simp [TF.MultiHeadAttention.dot_product_scores, Fin.sum_univ_two]
  · simp [Torch.MultiHeadSelfAttention.scores, Fin.sum_univ_two]

/-- C1 counterexample: with num_head = 2 and head_dim = 2 (so input_dim = 4),
the torch raw score of per-head query [1,0] against key [1,0] is
`1 / sqrt 4 = 1/2`, not the claimed `(q . k) / sqrt(head_dim) = 1 / sqrt 2`. -/
theorem torch_score_not_sqrt_head_dim :
    Torch.MultiHeadSelfAttention.scores
        (fun _ _ _ d => if d.val = 0 then (1:ℝ) else 0 : Fin 1 → Fin 1 → Fin 2 → Fin 2 → ℝ)
        (fun _ _ _ d => if d.val = 0 then (1:ℝ) else 0) 0 0 0 0 ≠ 1 / Real.sqrt 2 := by
  have h4 : Real.sqrt ((4:ℝ)) = 2 := by
    have h : (4:ℝ) = (2:ℝ) ^ 2 := by norm_num
    rw [h, Real.sqrt_sq (by norm_num : (0:ℝ) ≤ 2)]
  have hval : Torch.MultiHeadSelfAttention.scores
      (fun _ _ _ d => if d.val = 0 then (1:ℝ) else 0 : Fin 1 → Fin 1 → Fin 2 → Fin 2 → ℝ)
      (fun _ _ _ d => if d.val = 0 then (1:ℝ) else 0) 0 0 0 0 = 1 / 2 := by
    simp [Torch.MultiHeadSelfAttention.scores, Fin.sum_univ_two, h4]
  rw [hval]
  have hpos : 0 < Real.sqrt 2 := Real.sqrt_pos.mpr (by norm_num)
  have hlt : Real.sqrt 2 < 2 := by
    nlinarith [Real.sq_sqrt (by norm_num : (0:ℝ) ≤ 2), hpos]
  exact ne_of_lt (one_div_lt_one_div_of_lt hpos hlt)

/-- C3 (amended): the max-subtraction shift preserves the epsilon-free
softmax exactly; in the code, whose denominator adds `epsilon = 1e-10`, the
computed attention weights equal
`exp(s_k) / (sum_j exp(s_j) + epsilon * exp(max_j s_j))`, so they differ from
a naive softmax without the shift only through the epsilon term. -/
theorem max_shift_softmax_relation {K : ℕ} [NeZero K] :
    (∀ (f : Fin K → ℝ) (k : Fin K),
        Real.exp (f k - TF.keyMax f) / (∑ j, Real.exp (f j - TF.keyMax f)) =
          naive_softmax f k) ∧
    (∀ (B Q H : ℕ) (scores : Fin B → Fin Q → Fin K → Fin H → ℝ)
        (b : Fin B) (q : Fin Q) (k : Fin K) (h : Fin H),
        TF.MultiHeadAttention.attentions scores none b q k h =
          Real.exp (scores b q k h) /
            ((∑ j, Real.exp (scores b q j h)) +
              TF.epsilon * Real.exp (TF.keyMax fun j => scores b q j h))) := by
  constructor
  · intro f k
    rw [Real.exp_sub, sum_exp_sub_keyMax, naive_softmax]
    rw [div_div_div_cancel_right₀]
    exact Real.exp_ne_zero _
  · intro B Q H scores b q k h
    have hE : 0 < Real.exp (TF.keyMax fun j => scores b q j h) := Real.exp_pos _
    have hS : 0 < ∑ j, Real.exp (scores b q j h) := sum_exp_pos _
    have hε : 0 < TF.epsilon := epsilon_pos
    have hden1 : 0 < (∑ j, Real.exp (scores b q j h)) /
        Real.exp (TF.keyMax fun j => scores b q j h) + TF.epsilon := by
      have := div_pos hS hE
      linarith
    have hden2 : 0 < (∑ j, Real.exp (scores b q j h)) +
        TF.epsilon * Real.exp (TF.keyMax fun j => scores b q j h) := by
      have := mul_pos hε hE
      linarith
    simp only [TF.MultiHeadAttention.attentions, TF.MultiHeadAttention.masked_exp_scores,
      TF.MultiHeadAttention.exp_scores, TF.MultiHeadAttention.shifted_scores]
    rw [Real.exp_sub, sum_exp_sub_keyMax]
    rw [div_eq_div_iff hden1.ne' hden2.ne']
    field_simp

/-- C3 witness: the epsilon-free shift identity at one key with score 1. -/
theorem max_shift_softmax_relation_witness :
    Real.exp (1 - TF.keyMax (fun _ : Fin 1 => (1:ℝ))) /
        (∑ j : Fin 1, Real.exp (1 - TF.keyMax (fun _ : Fin 1 => (1:ℝ)))) =
      naive_softmax (fun _ : Fin 1 => (1:ℝ)) 0 :=
  (max_shift_softmax_relation (K := 1)).1 (fun _ => 1) 0

/-- C3 counterexample: with a single key of score 1, the code computes the
attention weight `1 / (1 + epsilon)`, while the naive unshifted softmax of
that row is exactly `1`; the shift-plus-epsilon pipeline therefore changes
the normalized weights (by the epsilon term). -/
theorem shifted_attention_ne_naive_softmax :
    TF.MultiHeadAttention.attentions
        (fun _ _ _ _ => (1:ℝ) : Fin 1 → Fin 1 → Fin 1 → Fin 1 → ℝ) none 0 0 0 0 ≠
      naive_softmax (fun _ : Fin 1 => (1:ℝ)) 0 := by
  have hM : TF.keyMax (fun _ : Fin 1 => (1:ℝ)) = 1 := by
    simp [TF.keyMax]
  have hL : TF.MultiHeadAttention.attentions
      (fun _ _ _ _ => (1:ℝ) : Fin 1 → Fin 1 → Fin 1 → Fin 1 → ℝ) none 0 0 0 0 =
      1 / (1 + TF.epsilon) := by
    simp [TF.MultiHeadAttention.attentions, TF.MultiHeadAttention.masked_exp_scores,
      TF.MultiHeadAttention.exp_scores, TF.MultiHeadAttention.shifted_scores, hM]
  have hR : naive_softmax (fun _ : Fin 1 => (1:ℝ)) 0 = 1 := by
    simp [naive_softmax]
  rw [hL, hR]
  have hε : 0 < TF.epsilon := epsilon_pos
  have hlt : 1 / (1 + TF.epsilon) < 1 := by
    rw [div_lt_one (by linarith)]
    linarith
  exact ne_of_lt hlt

/-- C4: for every even dimension D, the position-encoding table has D
columns; row p holds `sin(p / wave^(i/(D/2)))` in columns `[0, D/2)` and
`cos(p / wave^(i/(D/2)))` (with `i = j - D/2`) in columns `[D/2, D)`; for
L = 4, D = 4, wave = 10000 the divisors are [1, 100] and row 2 is
`[sin 2, sin 0.02, cos 2, cos 0.02]`. -/
theorem position_encoding_spec (L D : ℕ) (wave : ℝ) (hD : D % 2 = 0) :
    TF.pe_width D = D ∧
    (∀ (p : Fin L) (j : Fin (TF.pe_width D)),
      (j.val < D / 2 →
        TF.sinusoid_position_encoding L D wave p j =
          Real.sin ((p.val : ℝ) / wave ^ ((j.val : ℝ) / ((D / 2 : ℕ) : ℝ)))) ∧
      (D / 2 ≤ j.val →
        TF.sinusoid_position_encoding L D wave p j =
          Real.cos ((p.val : ℝ) / wave ^ (((j.val - D / 2 : ℕ) : ℝ) / ((D / 2 : ℕ) : ℝ))))) ∧
    (TF.pe_div 4 10000 0 = 1 ∧ TF.pe_div 4 10000 1 = 100) ∧
    (TF.sinusoid_position_encoding 4 4 10000 ⟨2, by norm_num⟩
        ⟨0, by norm_num [TF.pe_width, TF.pe_half_dim]⟩ = Real.sin 2 ∧
     TF.sinusoid_position_encoding 4 4 10000 ⟨2, by norm_num⟩
        ⟨1, by norm_num [TF.pe_width, TF.pe_half_dim]⟩ = Real.sin 0.02 ∧
     TF.sinusoid_position_encoding 4 4 10000 ⟨2, by norm_num⟩
        ⟨2, by norm_num [TF.pe_width, TF.pe_half_dim]⟩ = Real.cos 2 ∧
     TF.sinusoid_position_encoding 4 4 10000 ⟨2, by norm_num⟩
        ⟨3, by norm_num [TF.pe_width, TF.pe_half_dim]⟩ = Real.cos 0.02) := by
  have h0 : TF.pe_div 4 10000 0 = 1 := by
    simp [TF.pe_div, TF.pe_half_dim]
  have h1 : TF.pe_div 4 10000 1 = 100 := by
    have e1 : TF.pe_div 4 10000 1 = (10000:ℝ) ^ ((1:ℝ)/2) := by
      norm_num [TF.pe_div, TF.pe_half_dim]
    have e2 : (10000:ℝ) = (100:ℝ) ^ ((2:ℕ):ℝ) := by
      rw [Real.rpow_natCast]
      norm_num
    rw [e1, e2, ← Real.rpow_mul (by norm_num : (0:ℝ) ≤ 100)]
    rw [show ((2:ℕ):ℝ) * ((1:ℝ)/2) = 1 by norm_num]
    exact Real.rpow_one 100
  refine ⟨by simp [TF.pe_width, TF.pe_half_dim]; omega, fun p j => ⟨?_, ?_⟩,
    ⟨h0, h1⟩, ?_, ?_, ?_, ?_⟩
  · intro hj
    simp [TF.sinusoid_position_encoding, TF.pe_entry, TF.pe_theta, TF.pe_div,
      TF.pe_half_dim, hj]
  · intro hj
    simp [TF.sinusoid_position_encoding, TF.pe_entry, TF.pe_theta, TF.pe_div,
      TF.pe_half_dim, Nat.not_lt.mpr hj]
  · simp [TF.sinusoid_position_encoding, TF.pe_entry, TF.pe_theta, TF.pe_half_dim, h0]
  · rw [show Real.sin 0.02 = Real.sin ((2:ℝ)/100) by norm_num]
    simp [TF.sinusoid_position_encoding, TF.pe_entry, TF.pe_theta, TF.pe_half_dim, h1]
  · simp [TF.sinusoid_position_encoding, TF.pe_entry, TF.pe_theta, TF.pe_half_dim, h0]
  · rw [show Real.cos 0.02 = Real.cos ((2:ℝ)/100) by norm_num]
    simp [TF.sinusoid_position_encoding, TF.pe_entry, TF.pe_theta, TF.pe_half_dim, h1]

/-- C4 witness: the even-dimension hypothesis discharged at L = 4, D = 4,
wave = 10000, with the sine formula instantiated at row 2, column 0. -/
theorem position_encoding_spec_witness :
    TF.pe_width 4 = 4 ∧
    TF.sinusoid_position_encoding 4 4 10000 ⟨2, by norm_num⟩
        ⟨0, by norm_num [TF.pe_width, TF.pe_half_dim]⟩ =
      Real.sin (((2:ℕ):ℝ) / (10000:ℝ) ^ (((0:ℕ):ℝ) / (((4/2 : ℕ) : ℕ):ℝ))) :=
  ⟨(position_encoding_spec 4 4 10000 (by norm_num)).1,
   ((position_encoding_spec 4 4 10000 (by norm_num)).2.1 ⟨2, by norm_num⟩
      ⟨0, by norm_num [TF.pe_width, TF.pe_half_dim]⟩).1 (by norm_num)⟩

/-- C10: for every odd dimension D, `sinusoid_position_encoding` is total
(the odd-D precondition is not checked, nothing is raised) and its output
has `2 * (D / 2) = D - 1` columns, one fewer than requested. -/
theorem position_encoding_odd_dim (L D : ℕ) (wave : ℝ) (hD : D % 2 = 1) :
    TF.pe_width D = 2 * (D / 2) ∧
    TF.pe_width D = D - 1 ∧
    ∀ (p : Fin L) (j : Fin (TF.pe_width D)),
      TF.sinusoid_position_encoding L D wave p j = TF.pe_entry D wave p.val j.val := by
  refine ⟨?_, ?_, fun p j => rfl⟩
  · simp [TF.pe_width, TF.pe_half_dim]
    omega
  · simp [TF.pe_width, TF.pe_half_dim]
    omega

/-- C10 witness: at D = 3 the table has 2 = 3 - 1 columns. -/
theorem position_encoding_odd_dim_witness :
    TF.pe_width 3 = 3 - 1 :=
  (position_encoding_odd_dim 1 3 10000 (by norm_num)).2.1

/-- C7: the reduction layer's output shape is `(batch, dim_sum_output)` with
`dim_sum_output = num_head * (dim_sum_output / num_head)` (the constructor
asserts divisibility), independent of the input sequence length; in the
embedding the same invariance is carried by the type of
`MultiHeadReduction.call`, whose codomain `Fin B → Fin (H * Dh) → ℝ` does not
mention the sequence length. -/
theorem reduction_output_shape_invariant (num_head dim_sum_output : ℕ)
    (hdvd : num_head ∣ dim_sum_output) (B L1 L2 Din : ℕ) :
    TF.MultiHeadReduction.compute_output_shape dim_sum_output (B, L1, Din) =
      (B, num_head * (dim_sum_output / num_head)) ∧
    TF.MultiHeadReduction.compute_output_shape dim_sum_output (B, L1, Din) =
      TF.MultiHeadReduction.compute_output_shape dim_sum_output (B, L2, Din) := by
  constructor
  · simp [TF.MultiHeadReduction.compute_output_shape, Nat.mul_div_cancel' hdvd]
  · rfl

/-- C7 witness: sequence lengths 3 and 30 give the same output shape. -/
theorem reduction_output_shape_invariant_witness :
    TF.MultiHeadReduction.compute_output_shape 6 (1, 3, 5) = (1, 2 * (6 / 2)) :=
  (reduction_output_shape_invariant 2 6 (by norm_num) 1 3 30 5).1

/-- C8: for every scoring-mode string other than "dot-product" or
"additive", the constructor raises the configuration ValueError and no
configured layer is ever produced. -/
theorem invalid_attention_type_raises (s : String) (use_bias : Bool)
    (dim_additive : Option ℕ) (h1 : s ≠ "dot-product") (h2 : s ≠ "additive") :
    TF.MultiHeadAttention.init s use_bias dim_additive =
      Except.error ("invalid attention_type: " ++ s) ∧
    ∀ cfg, TF.MultiHeadAttention.init s use_bias dim_additive ≠ Except.ok cfg := by
  have h : TF.MultiHeadAttention.init s use_bias dim_additive =
      Except.error ("invalid attention_type: " ++ s) := by
    simp [TF.MultiHeadAttention.init, h1, h2]
  exact ⟨h, fun cfg hcfg => by rw [h] at hcfg; exact Except.noConfusion hcfg⟩

/-- C8 witness: the unsupported mode string "scaled" raises. -/
theorem invalid_attention_type_raises_witness :
    TF.MultiHeadAttention.init "scaled" false none =
      Except.error ("invalid attention_type: " ++ "scaled") :=
  (invalid_attention_type_raises "scaled" false none (by decide) (by decide)).1

/-- C9: a forward pass of the reduction layer writes only the
`self.attentions` diagnostic slot; every learned weight tensor (the kv
projection kernel, the learned query vectors, and the optional biases) is
identical after the call to its value before it. -/
theorem forward_pass_preserves_weights {B L Din H Dh : ℕ} [NeZero L]
    (s : TF.MultiHeadReduction.LayerState Din H Dh)
    (key_activation : Option (ℝ → ℝ)) (position_add : Bool) (wave : ℝ)
    (inputs : Fin B → Fin L → Fin Din → ℝ)
    (mask : Option (Fin B → Fin L → ℝ)) :
    (TF.MultiHeadReduction.call_step s key_activation position_add wave
      inputs mask).1.weights = s.weights :=
  rfl

/-- C9 witness: a concrete forward pass leaves the weights unchanged. -/
theorem forward_pass_preserves_weights_witness :
    (TF.MultiHeadReduction.call_step
        (⟨⟨fun _ _ _ _ => (0:ℝ), fun _ _ => 0, none, none⟩, none⟩ :
          TF.MultiHeadReduction.LayerState 1 1 1)
        none false 10000
        (fun (_ : Fin 1) (_ : Fin 1) (_ : Fin 1) => (0:ℝ)) none).1.weights =
      (⟨⟨fun _ _ _ _ => (0:ℝ), fun _ _ => 0, none, none⟩, none⟩ :
          TF.MultiHeadReduction.LayerState 1 1 1).weights :=
  forward_pass_preserves_weights
    (⟨⟨fun _ _ _ _ => (0:ℝ), fun _ _ => 0, none, none⟩, none⟩ :
      TF.MultiHeadReduction.LayerState 1 1 1)
    none false 10000 (fun _ _ _ => 0) none

end Baseline
